import Mathlib

/-!
Verification development for the catalog URL-fixer script (fix-broken-urls.py).

The script is embedded shallowly.  All effects of the Python libraries
(requests, BeautifulSoup, json parsing of response bodies, urljoin) are
collected in an oracle structure `Env`; everything written in the script
itself (the control flow, the concrete regular expressions, the entry
mutations, the counters and the file outputs) is translated into
executable Lean functions over that oracle.  Machine strings are Lean
strings (lists of characters), JSON documents are the inductive `Json`.
-/

/-- JSON values as produced by json.load.  Numbers are modelled as integers
(no catalog field relevant to the claims carries a float). -/
inductive Json where
  | null
  | bool (b : Bool)
  | num (n : Int)
  | str (s : String)
  | arr (elems : List Json)
  | obj (fields : List (String × Json))

/-- A catalog entry: a Python dict in insertion order (json.load yields
unique keys; lookup takes the first binding). -/
abbrev Entry := List (String × Json)

/-- Python d[k] / d.get(k): first binding of the key. -/
def jlookup (k : String) : Entry → Option Json
  | [] => none
  | (k1, v) :: rest => if k1 == k then some v else jlookup k rest

/-- Python d.get(k, default). -/
def jGetD (e : Entry) (k : String) (d : Json) : Json :=
  (jlookup k e).getD d

/-- Python d[k] = v: replace the value in place if the key exists,
otherwise append the new binding at the end (dict insertion order). -/
def setKey (e : Entry) (k : String) (v : Json) : Entry :=
  match e with
  | [] => [(k, v)]
  | (k1, v1) :: rest => if k1 == k then (k, v) :: rest else (k1, v1) :: setKey rest k v

/-- Python truthiness of a JSON value (used by the `if not url` check). -/
def jTruthy : Json → Bool
  | Json.null => false
  | Json.bool b => b
  | Json.num n => n != 0
  | Json.str s => s != ""
  | Json.arr xs => !xs.isEmpty
  | Json.obj kvs => !kvs.isEmpty

/-- Python truthiness of an optional string (None and the empty string are
falsy). -/
def pyTruthyS : Option String → Bool
  | none => false
  | some s => s != ""

/-- ASCII lower-casing of one character, as str.lower does on ASCII input. -/
def lowerChar (c : Char) : Char :=
  if 'A' ≤ c && c ≤ 'Z' then Char.ofNat (c.toNat + 32) else c

/-- str.lower (all data handled by the script is ASCII). -/
def pyLower (s : String) : String :=
  String.mk (s.data.map lowerChar)

/-- Does the second list start with the first one? -/
def leadsWith : List Char → List Char → Bool
  | [], _ => true
  | _ :: _, [] => false
  | a :: as, b :: bs => a == b && leadsWith as bs

/-- Does the second list contain the first one as a contiguous run?  This is
the semantics of the Python `sub in s` test for strings. -/
def hasRun (sub : List Char) : List Char → Bool
  | [] => sub.isEmpty
  | c :: cs => leadsWith sub (c :: cs) || hasRun sub cs

/-- Python `sub in s` on strings. -/
def pyIn (sub s : String) : Bool :=
  hasRun sub.data s.data

/-- Does the list end with the given run (str.endswith)? -/
def endsWithRun (sub l : List Char) : Bool :=
  leadsWith sub.reverse l.reverse

/-- Remainder of the list after the first occurrence of `sub`; `none` when
`sub` does not occur.  Used to implement the `a.*b` regex searches. -/
def searchAfter (sub : List Char) : List Char → Option (List Char)
  | [] => if sub.isEmpty then some [] else none
  | c :: cs => if leadsWith sub (c :: cs) then some (List.drop sub.length (c :: cs))
               else searchAfter sub cs

/-- Python str.split on a single character. -/
def splitOnChar (sep : Char) : List Char → List (List Char)
  | [] => [[]]
  | c :: cs =>
    match splitOnChar sep cs with
    | g :: gs => if c == sep then [] :: g :: gs else (c :: g) :: gs
    | [] => if c == sep then [[], []] else [[c]]

/-- Leading run of decimal digits of a list together with the remainder. -/
def takeDigits : List Char → List Char × List Char
  | [] => ([], [])
  | c :: cs => if c.isDigit then
      ((takeDigits cs).1.cons c, (takeDigits cs).2)
    else ([], c :: cs)

/-- Python int() of a non-empty decimal digit string. -/
def digitsToNat (l : List Char) : Nat :=
  l.foldl (fun a c => a * 10 + (c.toNat - 48)) 0

/-- str.rstrip of a single character. -/
def rstripChar (strip : Char) (s : String) : String :=
  String.mk (s.data.reverse.dropWhile (· == strip)).reverse

/-- Outcome of requests.head(url, allow_redirects=True): either a response
(final status code after redirects, final resolved URL resp.url) or a
raised exception (timeout, DNS failure, malformed URL, connection error). -/
inductive HeadResult where
  | ok (status : Nat) (finalUrl : String)
  | exn

/-- Outcome of requests.get(url): either a response (status code and body
text) or a raised exception. -/
inductive GetResult where
  | ok (status : Nat) (body : String)
  | exn

/-- The oracle for the libraries the script calls.  `head` and `get` are the
two request shapes; `links` is BeautifulSoup parsing of a body into the
href attributes of its anchor elements in document order; `urljoin` is
urllib.parse.urljoin; `parseJson` is resp.json() (`none` when the body is
not JSON, which raises in Python). -/
structure Env where
  head : String → HeadResult
  get : String → GetResult
  links : String → List String
  urljoin : String → String → String
  parseJson : String → Option Json

/-- test_url: probe a URL with a redirect-following HEAD request; returns
(is_valid, resp.url when valid).  The bare except swallows every raised
exception into (False, None). -/
def test_url (env : Env) (url : String) : Bool × Option String :=
  match env.head url with
  | HeadResult.ok status finalUrl =>
      if status == 200 then (true, some finalUrl) else (false, none)
  | HeadResult.exn => (false, none)

/-- test_url applied to an arbitrary JSON value, as the main loop does with
distro.get("download_url").  requests raises on a non-string argument and
the bare except turns that into (False, None). -/
def test_url_any (env : Env) (url : Json) : Bool × Option String :=
  match url with
  | Json.str s => test_url env s
  | _ => (false, none)

/-- Probe a list of candidate URLs in order and return the final URL of the
first probe that validates (the shape of each brute-force loop that exits
on its first success). -/
def firstValidProbe (env : Env) : List String → Option String
  | [] => none
  | u :: us =>
    match test_url env u with
    | (true, some f) => some f
    | _ => firstValidProbe env us

/-- Well-formedness of the HTTP layer: a completed response carries a
non-empty resp.url (requests always sets resp.url to the URL of the final
request, never to the empty string). -/
def headWF (env : Env) : Prop :=
  ∀ u s f, env.head u = HeadResult.ok s f → f ≠ ""

/-- Scanner for the regex (\d+)\.(\d+) (and the identical-match pattern
\d+\.\d+ used by re.sub): find the leftmost occurrence of a digit run
followed by a dot and a digit run, both runs taken greedily.  Returns
(prefix before the match, major digits, minor digits, rest after the
match).  A digit run whose follower is not ".digit" cannot start a match
anywhere inside itself, so the scan resumes after the run.  The fuel
argument (any value at least the length of the list) makes the recursion
structural. -/
def findVerAux : Nat → List Char → Option (List Char × List Char × List Char × List Char)
  | 0, _ => none
  | _, [] => none
  | fuel + 1, c :: cs =>
    if c.isDigit then
      let d := (takeDigits cs).1
      let r := (takeDigits cs).2
      match r with
      | '.' :: r2 =>
        match takeDigits r2 with
        | (d2, r3) =>
          if d2.isEmpty then
            match findVerAux fuel r with
            | none => none
            | some (p, a, b, rest) => some ((c :: d) ++ p, a, b, rest)
          else some ([], c :: d, d2, r3)
      | _ =>
        match findVerAux fuel r with
        | none => none
        | some (p, a, b, rest) => some ((c :: d) ++ p, a, b, rest)
    else
      match findVerAux fuel cs with
      | none => none
      | some (p, a, b, rest) => some (c :: p, a, b, rest)

/-- First major.minor version pattern of a URL: re.findall((\d+)\.(\d+))[0]
with the surrounding text split at the match of \d+\.\d+. -/
def findVersion (s : String) : Option (String × Nat × Nat × String) :=
  match findVerAux (s.data.length + 1) s.data with
  | none => none
  | some (p, a, b, rest) => some (String.mk p, digitsToNat a, digitsToNat b, String.mk rest)

/-- re.sub(\d+\.\d+, f"{m}.{n}", url, count=1): replace the first
occurrence of the version pattern. -/
def subFirstVersion (url : String) (m n : Nat) : String :=
  match findVersion url with
  | none => url
  | some (pre, _, _, rest) => pre ++ toString m ++ "." ++ toString n ++ rest

/-- Scanner for re.search(github\.com/([^/]+/[^/]+), url): at each
occurrence of the literal "github.com/", both slash-free runs must be
non-empty; on failure the scan resumes at the next character. -/
def ghRepoAux : List Char → Option (List Char)
  | [] => none
  | c :: cs =>
    if leadsWith "github.com/".data (c :: cs) then
      match List.span (fun x => !(x == '/')) (List.drop 11 (c :: cs)) with
      | (r1, rest2) =>
        if r1.isEmpty then ghRepoAux cs
        else
          match rest2 with
          | '/' :: rest3 =>
            match (List.span (fun x => !(x == '/')) rest3).1 with
            | [] => ghRepoAux cs
            | r2 => some (r1 ++ '/' :: r2)
          | _ => ghRepoAux cs
    else ghRepoAux cs

/-- The owner/repo group extracted from a GitHub URL, when present. -/
def ghRepoOf (url : String) : Option String :=
  (ghRepoAux url.data).map String.mk

/-- Scanner for re.search(sourceforge\.net/projects/([^/]+), url). -/
def sfProjectAux : List Char → Option (List Char)
  | [] => none
  | c :: cs =>
    if leadsWith "sourceforge.net/projects/".data (c :: cs) then
      match (List.span (fun x => !(x == '/')) (List.drop 25 (c :: cs))).1 with
      | [] => sfProjectAux cs
      | r1 => some r1
    else sfProjectAux cs

/-- The SourceForge project name extracted from a URL, when present. -/
def sfProjectOf (url : String) : Option String :=
  (sfProjectAux url.data).map String.mk

/-- Is "/files/" present at some position of the list with at least one
character after it? -/
def filesScan : List Char → Bool
  | [] => false
  | c :: cs => (leadsWith "/files/".data (c :: cs) && decide (7 ≤ cs.length)) || filesScan cs

/-- Does the quote-free run contain "/files/" with at least one character
before it and one after it (the [^"]+/files/[^"]+ part of the feed
regex)? -/
def hasFilesInside : List Char → Bool
  | [] => false
  | _ :: rest => filesScan rest

/-- Scanner for re.findall(https://sourceforge\.net/projects/[^"]+/files/[^"]+, body).
At an occurrence of the literal prefix, both [^"]+ groups being greedy
means a successful match always extends to the end of the quote-free run
that follows the prefix; the match succeeds exactly when "/files/" occurs
properly inside that run.  Matches are non-overlapping: the scan resumes
after a match, or at the next character after a failed occurrence. -/
def sfFindallAux : Nat → List Char → List (List Char)
  | 0, _ => []
  | _, [] => []
  | fuel + 1, c :: cs =>
    if leadsWith "https://sourceforge.net/projects/".data (c :: cs) then
      let tl := List.drop 33 (c :: cs)
      let r := tl.takeWhile (fun x => !(x == '"'))
      if hasFilesInside r then
        ("https://sourceforge.net/projects/".data ++ r) :: sfFindallAux fuel (tl.drop r.length)
      else sfFindallAux fuel cs
    else sfFindallAux fuel cs

/-- All file-listing links matched in a feed body. -/
def sfFindall (body : String) : List String :=
  (sfFindallAux (body.data.length + 1) body.data).map String.mk

/-- re.match(\d+\.\d+, s): the string starts with a digit run followed by a
dot and a digit. -/
def startsWithVer (s : String) : Bool :=
  match takeDigits s.data with
  | (d, r) =>
    !d.isEmpty &&
      (match r with
       | '.' :: c2 :: _ => c2.isDigit
       | _ => false)

/-- re.sub([-_]\d+.*, "", stem): cut from the first hyphen or underscore
that is followed by a digit to the end (stems here are single-line). -/
def stripVerSuffix : List Char → List Char
  | [] => []
  | [c] => [c]
  | c :: c2 :: cs =>
    if (c == '-' || c == '_') && c2.isDigit then []
    else c :: stripVerSuffix (c2 :: cs)

/-- The filename pattern the main loop derives for the GitHub strategy:
url.split("/")[-1].split(".")[0] with its trailing version suffix
stripped. -/
def ghDerivedPattern (url : String) : String :=
  String.mk (stripVerSuffix (((splitOnChar '/' url.data).getLastD []).takeWhile (fun x => !(x == '.'))))

/-- The filename hint the main loop derives for the SourceForge strategy:
the second-to-last path component when the URL contains "/download",
otherwise the last one. -/
def sfFilenameOf (url : String) : String :=
  let parts := splitOnChar '/' url.data
  if pyIn "/download" url then String.mk (parts.getD (parts.length - 2) [])
  else String.mk (parts.getLastD [])

/-- re.search(desktop.*amd64\.iso, href, re.I): "desktop" followed
somewhere later by "amd64.iso", case-insensitively. -/
def patDesktopAmd64Iso (href : String) : Bool :=
  match searchAfter "desktop".data (pyLower href).data with
  | some rest => hasRun "amd64.iso".data rest
  | none => false

/-- re.search(Core.*64.*\.iso, href, re.I): "core", then "64", then ".iso"
in order, case-insensitively. -/
def patCore64Iso (href : String) : Bool :=
  match searchAfter "core".data (pyLower href).data with
  | some r1 =>
    match searchAfter "64".data r1 with
    | some r2 => hasRun ".iso".data r2
    | none => false
  | none => false

/-- re.search(\.(iso|img|img\.xz|img\.gz)$, href, re.I): the href ends in
one of the recognized image extensions, case-insensitively. -/
def isoImgHref (href : String) : Bool :=
  let l := (pyLower href).data
  endsWithRun ".iso".data l || endsWithRun ".img".data l ||
    endsWithRun ".img.xz".data l || endsWithRun ".img.gz".data l

/-- The anchor-scanning loop of scrape_download_page: for each href in
document order, keep hrefs with a recognized image extension, apply the
optional name-filter pattern (to the raw href), resolve relative hrefs
against the page URL, probe, and return the first final URL that
validates; on a failed probe the loop continues. -/
def scrapeLoop (env : Env) (pageUrl : String) (pattern : Option (String → Bool)) :
    List String → Option String
  | [] => none
  | href :: rest =>
    if isoImgHref href then
      if (match pattern with
          | some p => !(p href)
          | none => false) then scrapeLoop env pageUrl pattern rest
      else
        match test_url env (if leadsWith "http".data href.data then href
                            else env.urljoin pageUrl href) with
        | (true, some f) => some f
        | _ => scrapeLoop env pageUrl pattern rest
    else scrapeLoop env pageUrl pattern rest

/-- scrape_download_page: fetch a page (absent on a raised exception or a
non-200 status), then scan its links.  The pattern argument stands for
re.search(pattern, href, re.I) of the concrete regex each caller passes. -/
def scrape_download_page (env : Env) (url : String) (pattern : Option (String → Bool)) :
    Option String :=
  match env.get url with
  | GetResult.exn => none
  | GetResult.ok status body =>
    if status == 200 then scrapeLoop env url pattern (env.links body) else none

/-- Largest string of a list under the Python string order (the head of
sorted(versions, reverse=True)); none when the list is empty. -/
def maxString (l : List String) : Option String :=
  l.foldl (fun acc v =>
    match acc with
    | none => some v
    | some m => if m < v then some v else some m) none

/-- fix_kubuntu: scrape the release index (its status code is not checked),
collect version-directory hrefs, pick the greatest one, and delegate to
the page scraper with the desktop amd64 iso pattern. -/
def fix_kubuntu (env : Env) (_url : String) : Option String :=
  match env.get "https://cdimage.ubuntu.com/kubuntu/releases/" with
  | GetResult.exn => none
  | GetResult.ok _ body =>
    match maxString (((env.links body).filter startsWithVer).map (rstripChar '/')) with
    | none => none
    | some latest =>
      scrape_download_page env
        ("https://cdimage.ubuntu.com/kubuntu/releases/" ++ latest ++ "/release/")
        (some patDesktopAmd64Iso)

/-- The candidate URLs fix_popos probes: versions 24.04 and 22.04, build
types intel and nvidia, build numbers 60 down to 41. -/
def popCandidates : List String :=
  ["24.04", "22.04"].flatMap fun v =>
    ["intel", "nvidia"].flatMap fun t =>
      ((List.range 20).map (fun i => 60 - i)).map fun b =>
        "https://iso.pop-os.org/" ++ v ++ "/amd64/" ++ t ++ "/" ++ toString b ++
          "/pop-os_" ++ v ++ "_amd64_" ++ t ++ "_" ++ toString b ++ ".iso"

/-- fix_popos: probe the constructed candidates in order, returning on the
first valid one. -/
def fix_popos (env : Env) (_url : String) : Option String :=
  firstValidProbe env popCandidates

/-- fix_zorin: fetch the SourceForge files page (the response is unused but
a raised exception aborts to absent), then delegate to the page scraper
with the Core 64 iso pattern. -/
def fix_zorin (env : Env) (_url : String) : Option String :=
  match env.get "https://sourceforge.net/projects/zorinos/files/" with
  | GetResult.exn => none
  | GetResult.ok _ _ =>
    scrape_download_page env "https://sourceforge.net/projects/zorinos/files/"
      (some patCore64Iso)

/-- The candidate URLs fix_nobara probes. -/
def nobaraCandidates : List String :=
  ([40, 41] : List Nat).flatMap fun v =>
    ["2024-11", "2024-12", "2025-01"].map fun m =>
      "https://nobaraproject.org/Nobara-" ++ toString v ++ "-Official-" ++ m ++ ".iso"

/-- fix_nobara: probe the constructed candidates in order. -/
def fix_nobara (env : Env) (_url : String) : Option String :=
  firstValidProbe env nobaraCandidates

/-- The link loop shared by fix_bazzite and fix_chimeraos: keep hrefs that
contain the needle and ".iso" (case-sensitively), prefix the GitHub host,
probe, first valid wins. -/
def ghPageLoop (env : Env) (needle : String) : List String → Option String
  | [] => none
  | href :: rest =>
    if pyIn needle href && pyIn ".iso" href then
      match test_url env ("https://github.com" ++ href) with
      | (true, some f) => some f
      | _ => ghPageLoop env needle rest
    else ghPageLoop env needle rest

/-- fix_bazzite: scrape the GitHub releases page (status unchecked) for a
bazzite-gnome or bazzite-deck iso link, the variant chosen from the
entry name. -/
def fix_bazzite (env : Env) (name : String) : Option String :=
  match env.get "https://github.com/ublue-os/bazzite/releases" with
  | GetResult.exn => none
  | GetResult.ok _ body =>
    ghPageLoop env
      ("bazzite-" ++ (if pyIn "gnome" (pyLower name) then "gnome" else "deck"))
      (env.links body)

/-- fix_chimeraos: scrape the GitHub releases page (status unchecked) for a
chimeraos iso link. -/
def fix_chimeraos (env : Env) (_url : String) : Option String :=
  match env.get "https://github.com/ChimeraOS/chimeraos/releases" with
  | GetResult.exn => none
  | GetResult.ok _ body => ghPageLoop env "chimeraos" (env.links body)

/-- release.get("assets", []): absent key defaults to the empty list, a
non-list value (or a non-dict release) raises when used, which the
enclosing handler turns into absent for the whole strategy. -/
def ghAssets : Json → Option (List Json)
  | Json.obj kvs =>
    match jlookup "assets" kvs with
    | some (Json.arr as) => some as
    | some _ => none
    | none => some []
  | _ => none

/-- The asset loop of find_github_release_url.  An asset is a candidate when
its name matches the derived filename pattern (the pattern is a
version-stripped filename stem, matched here as a case-insensitive
substring) or ends in .iso or .img.xz.  A candidate is probed and the
first valid final URL is returned; a missing name or download field, or a
non-string name, raises (Except.error), aborting the whole strategy. -/
def ghScanAssets (env : Env) (pattern : String) : List Json → Except Unit (Option String)
  | [] => Except.ok none
  | a :: rest =>
    match a with
    | Json.obj kvs =>
      match jlookup "name" kvs, jlookup "browser_download_url" kvs with
      | some (Json.str n), some u =>
        if pyIn (pyLower pattern) (pyLower n) || endsWithRun ".iso".data (pyLower n).data ||
            endsWithRun ".img.xz".data (pyLower n).data then
          match test_url_any env u with
          | (true, some f) => Except.ok (some f)
          | _ => ghScanAssets env pattern rest
        else ghScanAssets env pattern rest
      | _, _ => Except.error ()
    | _ => Except.error ()

/-- The release loop of find_github_release_url over the releases list. -/
def ghScanReleases (env : Env) (pattern : String) : List Json → Except Unit (Option String)
  | [] => Except.ok none
  | r :: rest =>
    match ghAssets r with
    | none => Except.error ()
    | some as =>
      match ghScanAssets env pattern as with
      | Except.error e => Except.error e
      | Except.ok (some f) => Except.ok (some f)
      | Except.ok none => ghScanReleases env pattern rest

/-- Scan up to the 5 most recent releases; a raised exception anywhere is
caught by the strategy and becomes absent. -/
def ghScan (env : Env) (pattern : String) (releases : List Json) : Option String :=
  match ghScanReleases env pattern (releases.take 5) with
  | Except.ok r => r
  | Except.error _ => none

/-- find_github_release_url: extract owner/repo from the broken URL, query
the latest-release API, fall back to the all-releases API on a non-200
status, and scan the release assets.  Every raised exception (request
failure, non-JSON body, malformed release object) yields absent. -/
def find_github_release_url (env : Env) (repo_url filename_pattern _distro_name : String) :
    Option String :=
  match ghRepoOf repo_url with
  | none => none
  | some repo =>
    match env.get ("https://api.github.com/repos/" ++ repo ++ "/releases/latest") with
    | GetResult.exn => none
    | GetResult.ok s body =>
      if s == 200 then
        match env.parseJson body with
        | some j => ghScan env filename_pattern [j]
        | none => none
      else
        match env.get ("https://api.github.com/repos/" ++ repo ++ "/releases") with
        | GetResult.exn => none
        | GetResult.ok s2 body2 =>
          if s2 == 200 then
            match env.parseJson body2 with
            | some (Json.arr rs) => ghScan env filename_pattern rs
            | some _ => none
            | none => none
          else none

/-- The candidate loop of find_sourceforge_url: a link is kept when it
contains the filename hint or ".iso" (case-insensitively, by
containment); the download suffix is appended and the first valid final
URL returned. -/
def sfCandLoop (env : Env) (hint : String) : List String → Option String
  | [] => none
  | link :: ls =>
    if pyIn (pyLower hint) (pyLower link) || pyIn ".iso" (pyLower link) then
      match test_url env (link ++ "/download") with
      | (true, some f) => some f
      | _ => sfCandLoop env hint ls
    else sfCandLoop env hint ls

/-- find_sourceforge_url: fetch the project recent-files RSS feed, extract
file-listing links with the feed regex, and run the candidate loop over
the first 5 extracted links.  Absent on a raised exception or a non-200
status. -/
def find_sourceforge_url (env : Env) (project hint : String) : Option String :=
  match env.get ("https://sourceforge.net/projects/" ++ project ++ "/rss") with
  | GetResult.exn => none
  | GetResult.ok s body =>
    if s == 200 then sfCandLoop env hint ((sfFindall body).take 5) else none

/-- The inner minor-version loop of the version-bump strategy: probe each
substituted URL and stop at the first probe success, whose final URL
becomes new_url. -/
def vbInner (env : Env) (url : String) (m : Nat) : List Nat → Option String
  | [] => none
  | n :: ns =>
    match test_url env (subFirstVersion url m n) with
    | (true, some f) => some f
    | _ => vbInner env url m ns

/-- The outer major-version loop: new_url keeps its previous value when the
inner loop had no success, and the outer loop exits when new_url is
truthy (Python `if new_url: break`). -/
def vbOuter (env : Env) (url : String) (ns : List Nat) (cur : Option String) :
    List Nat → Option String
  | [] => cur
  | m :: ms =>
    match (match vbInner env url m ns with
           | some f => some f
           | none => cur) with
    | cur2 => if pyTruthyS cur2 then cur2 else vbOuter env url ns cur2 ms

/-- The version-bump strategy of the main loop: extract the first
major.minor pair of the URL and scan major in range(major, major+2),
minor in range(minor, min(minor+5, 50)), substituting the first pattern
occurrence. -/
def version_bump (env : Env) (url : String) : Option String :=
  match findVersion url with
  | none => none
  | some (_, major, minor, _) =>
    vbOuter env url (List.range' minor (min (minor + 5) 50 - minor)) none
      [major, major + 1]

/-- The site-specific dispatch of the main loop: case-insensitive substring
tests against the entry name, first match wins, at most one resolver
runs. -/
def dispatchSpecific (env : Env) (name url : String) : Option String :=
  let nl := pyLower name
  if pyIn "kubuntu" nl then fix_kubuntu env url
  else if pyIn "pop" nl && pyIn "os" nl then fix_popos env url
  else if pyIn "zorin" nl then fix_zorin env url
  else if pyIn "nobara" nl then fix_nobara env url
  else if pyIn "bazzite" nl then fix_bazzite env name
  else if pyIn "chimera" nl then fix_chimeraos env url
  else none

/-- The generic strategy block of the main loop (entered when new_url is
falsy after the site-specific dispatch).  It is a chain of mutually
exclusive branches keyed on the URL: GitHub, else SourceForge, else a
version pattern, else the two known mirror domains (which only print).
Branches that do not assign leave new_url at its incoming value. -/
def genericFallbacks (env : Env) (name url : String) (new0 : Option String) : Option String :=
  if pyIn "github.com" url then
    find_github_release_url env url (ghDerivedPattern url) name
  else if pyIn "sourceforge.net" url then
    match sfProjectOf url with
    | some project => find_sourceforge_url env project (sfFilenameOf url)
    | none => new0
  else if (findVersion url).isSome then
    version_bump env url
  else if pyIn "download.fedoraproject.org" url || pyIn "cdimage.debian.org" url then
    new0
  else new0

/-- The full replacement search for a broken entry: the site-specific
dispatch, then, when its result is falsy, the generic strategy block. -/
def searchReplacement (env : Env) (name url : String) : Option String :=
  let specific := dispatchSpecific env name url
  if pyTruthyS specific then specific else genericFallbacks env name url specific

/-- What happened to one entry. -/
inductive Outcome where
  | skipped
  | working
  | redirected (finalUrl : String)
  | fixed (candidate finalUrl : String)
  | stillBroken (name url reason : String)
deriving DecidableEq

/-- The broken branch of the main loop: when the search produced a truthy
candidate, re-probe it; on success overwrite download_url with the
verified final URL and set verified to false, otherwise record the
failure and leave the entry untouched. -/
def brokenOutcome (env : Env) (e : Entry) (name url : String) : Entry × Outcome :=
  match searchReplacement env name url with
  | some c =>
    if c == "" then (e, Outcome.stillBroken name url "No replacement found")
    else
      match test_url env c with
      | (true, some v) =>
        (setKey (setKey e "download_url" (Json.str v)) "verified" (Json.bool false),
         Outcome.fixed c v)
      | _ => (e, Outcome.stillBroken name url "Found replacement but validation failed")
  | none => (e, Outcome.stillBroken name url "No replacement found")

/-- One iteration of the main loop on one entry: the possibly mutated entry
and its outcome.  `none` models an uncaught exception (a truthy non-string
download_url is sliced and probed, a broken entry with a non-string name
is lower-cased; both raise and crash the run). -/
def stepEntry (env : Env) (e : Entry) : Option (Entry × Outcome) :=
  if jTruthy (jGetD e "download_url" (Json.str "")) then
    match jGetD e "download_url" (Json.str "") with
    | Json.str url =>
      match test_url env url with
      | (true, some f) =>
        if f != url then some (setKey e "download_url" (Json.str f), Outcome.redirected f)
        else some (e, Outcome.working)
      | (true, none) => none
      | (false, _) =>
        match jGetD e "name" (Json.str "Unknown") with
        | Json.str name => some (brokenOutcome env e name url)
        | _ => none
    | _ => none
  else some (e, Outcome.skipped)

/-- The running totals of the loop: the processed entries in order and the
counters and failure list. -/
structure St where
  processed : List Entry
  fixedCount : Nat
  redirectCount : Nat
  skippedWorking : Nat
  failedDistros : List (String × String × String)

/-- The empty totals at the start of the loop. -/
def initSt : St :=
  { processed := [], fixedCount := 0, redirectCount := 0, skippedWorking := 0,
    failedDistros := [] }

/-- Fold one entry result into the totals. -/
def applyStep (st : St) (r : Entry × Outcome) : St :=
  { processed := st.processed ++ [r.1]
    fixedCount := st.fixedCount + (match r.2 with | Outcome.fixed _ _ => 1 | _ => 0)
    redirectCount := st.redirectCount + (match r.2 with | Outcome.redirected _ => 1 | _ => 0)
    skippedWorking := st.skippedWorking + (match r.2 with | Outcome.working => 1 | _ => 0)
    failedDistros := st.failedDistros ++
      (match r.2 with | Outcome.stillBroken n u reason => [(n, u, reason)] | _ => []) }

/-- One main-loop iteration at the level of the totals. -/
def mainStep (env : Env) (st : St) (e : Entry) : Option St :=
  (stepEntry env e).map (applyStep st)

/-- The catalog items must all be JSON objects to survive distro.get. -/
def entriesOf : List Json → Option (List Entry)
  | [] => some []
  | Json.obj kvs :: rest => (entriesOf rest).map (kvs :: ·)
  | _ :: _ => none

/-- The document written to the output file: the original wrapper object
with its distros list replaced by the mutated entries, or the bare
mutated list. -/
def buildOutput (data : Json) (hasWrapper : Bool) (processed : List Entry) : Json :=
  if hasWrapper then
    match data with
    | Json.obj kvs => Json.obj (setKey kvs "distros" (Json.arr (processed.map Json.obj)))
    | _ => data
  else Json.arr (processed.map Json.obj)

/-- A file-system effect of the run. -/
inductive FileOp where
  | copy (src dst : String)
  | write (path : String) (content : Json)

/-- The observable result of a completed run. -/
structure MainResult where
  st : St
  hasWrapper : Bool
  fileOps : List FileOp
  exitCode : Nat

/-- After the loop: when at least one fix or redirect happened, copy the
source file to the backup location and write the updated catalog to the
new location; otherwise write nothing.  Exit status 0 exactly when no
entry is still broken. -/
def finishRun (data : Json) (hasWrapper : Bool) (st : St) : MainResult :=
  { st := st
    hasWrapper := hasWrapper
    fileOps :=
      if 0 < st.fixedCount + st.redirectCount then
        [FileOp.copy "catalog.json" "catalog.json.backup",
         FileOp.write "catalog.json.new" (buildOutput data hasWrapper st.processed)]
      else []
    exitCode := if st.failedDistros.isEmpty then 0 else 1 }

/-- Run the loop over a catalog value (which must be an array of objects;
anything else raises during iteration and crashes the run). -/
def runCatalog (env : Env) (data catalogJ : Json) (hasWrapper : Bool) : Option MainResult :=
  match catalogJ with
  | Json.arr items =>
    match entriesOf items with
    | some entries =>
      match List.foldlM (mainStep env) initSt entries with
      | some st => some (finishRun data hasWrapper st)
      | none => none
    | none => none
  | _ => none

/-- The main function: detect the wrapper shape (an object with a distros
key versus a bare value) and run the loop. -/
def mainRun (env : Env) (data : Json) : Option MainResult :=
  match data with
  | Json.obj kvs =>
    match jlookup "distros" kvs with
    | some v => runCatalog env (Json.obj kvs) v true
    | none => runCatalog env (Json.obj kvs) (Json.obj kvs) false
  | other => runCatalog env other other false

/-- The hosted-file-index lookup as the specification words it: filter the
extracted links to those containing the filename hint or ending in .iso,
append the download suffix, and probe up to 5 such candidates in order. -/
def find_sourceforge_claimspec (env : Env) (project hint : String) : Option String :=
  match env.get ("https://sourceforge.net/projects/" ++ project ++ "/rss") with
  | GetResult.exn => none
  | GetResult.ok s body =>
    if s == 200 then
      firstValidProbe env
        ((((sfFindall body).filter (fun l =>
              pyIn (pyLower hint) (pyLower l) ||
                endsWithRun ".iso".data (pyLower l).data)).take 5).map
          (fun l => l ++ "/download"))
    else none

/-- The hosted-file-index lookup as the code has it: take the first 5
extracted links, filter to those containing the filename hint or
containing ".iso" (case-insensitively), append the download suffix, and
probe the matching ones in order. -/
def find_sourceforge_amended (env : Env) (project hint : String) : Option String :=
  match env.get ("https://sourceforge.net/projects/" ++ project ++ "/rss") with
  | GetResult.exn => none
  | GetResult.ok s body =>
    if s == 200 then
      firstValidProbe env
        ((((sfFindall body).take 5).filter (fun l =>
              pyIn (pyLower hint) (pyLower l) || pyIn ".iso" (pyLower l))).map
          (fun l => l ++ "/download"))
    else none

/-- The generic strategy chain as the specification words it: each
applicable generic resolver is attempted in priority order until one
returns a candidate (the known-mirror strategy always yields absent). -/
def genericFallbacksClaim (env : Env) (name url : String) : Option String :=
  match (if pyIn "github.com" url then
           find_github_release_url env url (ghDerivedPattern url) name
         else none) with
  | some u => some u
  | none =>
    match (if pyIn "sourceforge.net" url then
             match sfProjectOf url with
             | some project => find_sourceforge_url env project (sfFilenameOf url)
             | none => none
           else none) with
    | some u => some u
    | none =>
      if (findVersion url).isSome then version_bump env url else none

/-- The generic strategy block as the amended claim words it: exactly one
generic resolver is attempted, the first in the priority order whose
applicability condition matches the URL, and its result (absent or not)
is final; when no condition matches, or the matched hosted-file-index
branch finds no project identifier in the URL, the incoming falsy
site-specific value is passed through unchanged (the known-mirror branch
attempts nothing). -/
def genericFallbacksAmended (env : Env) (name url : String) (new0 : Option String) :
    Option String :=
  if pyIn "github.com" url then
    find_github_release_url env url (ghDerivedPattern url) name
  else if pyIn "sourceforge.net" url then
    match sfProjectOf url with
    | some project => find_sourceforge_url env project (sfFilenameOf url)
    | none => new0
  else if (findVersion url).isSome then
    version_bump env url
  else new0

/-- The version-bump strategy as the specification words it: probe the
substituted URLs for major in [major, major+1] and minor in
[minor, min(minor+4, 49)], in order, stopping at the first probe
success. -/
def version_bump_spec (env : Env) (url : String) : Option String :=
  match findVersion url with
  | none => none
  | some (_, major, minor, _) =>
    firstValidProbe env
      (([major, major + 1].flatMap fun m =>
          (List.range' minor (min (minor + 4) 49 + 1 - minor)).map fun n =>
            subFirstVersion url m n))

/-- An oracle on which every request raises. -/
def envDead : Env :=
  { head := fun _ => HeadResult.exn
    get := fun _ => GetResult.exn
    links := fun _ => []
    urljoin := fun _ h => h
    parseJson := fun _ => none }

/-- An oracle on which one URL answers 200 with a different final URL. -/
def envRedirect : Env :=
  { envDead with
    head := fun u =>
      if u == "http://a/x.iso" then HeadResult.ok 200 "http://b/x.iso" else HeadResult.exn }

/-- An entry whose URL redirects under envRedirect. -/
def eRed : Entry := [("name", Json.str "A"), ("download_url", Json.str "http://a/x.iso")]

/-- The entry after the redirect was folded in. -/
def eRed2 : Entry := [("name", Json.str "A"), ("download_url", Json.str "http://b/x.iso")]

/-- A bare-array catalog holding the redirecting entry. -/
def dataRed : Json := Json.arr [Json.obj eRed]

/-- The loop totals after processing dataRed under envRedirect. -/
def stRed : St :=
  { processed := [eRed2], fixedCount := 0, redirectCount := 1, skippedWorking := 0,
    failedDistros := [] }

/-- The completed run on dataRed under envRedirect. -/
def resRed : MainResult := finishRun dataRed false stRed

/-- An entry with a dead URL and no matching resolver. -/
def eDead : Entry := [("name", Json.str "A"), ("download_url", Json.str "http://x")]

/-- An oracle under which the version-bump candidate one minor up answers
200. -/
def envFix : Env :=
  { envDead with
    head := fun u =>
      if u == "http://host/v1.3/x.iso" then HeadResult.ok 200 "http://host/v1.3/x.iso"
      else HeadResult.exn }

/-- An entry whose dead URL embeds version 1.2 and gets fixed under
envFix. -/
def eFix : Entry :=
  [("name", Json.str "T"), ("download_url", Json.str "http://host/v1.2/x.iso"),
   ("other", Json.num 7)]

/-- The fixed entry: download_url overwritten, verified appended as false. -/
def eFix2 : Entry :=
  setKey (setKey eFix "download_url" (Json.str "http://host/v1.3/x.iso")) "verified"
    (Json.bool false)

/-- A broken GitHub release URL that also embeds a version pattern. -/
def urlGh : String := "https://github.com/o/r/releases/download/v1.2/app-1.2.iso"

/-- The URL one minor version up from urlGh (first pattern occurrence
substituted). -/
def urlGhBumped : String := "https://github.com/o/r/releases/download/v1.3/app-1.2.iso"

/-- An oracle under which the GitHub release API raises while the bumped
version answers 200. -/
def envGh : Env :=
  { envDead with
    head := fun u => if u == urlGhBumped then HeadResult.ok 200 urlGhBumped else HeadResult.exn }

/-- The entry carrying urlGh. -/
def entryGh : Entry := [("name", Json.str "X"), ("download_url", Json.str urlGh)]

/-- A broken SourceForge download URL that also embeds a version pattern. -/
def urlSf : String := "https://sourceforge.net/projects/q/files/tool-1.2.iso/download"

/-- The URL one minor version up from urlSf (first pattern occurrence
substituted). -/
def urlSfBumped : String := "https://sourceforge.net/projects/q/files/tool-1.3.iso/download"

/-- An oracle under which the SourceForge feed request raises while the
bumped version answers 200. -/
def envSfC : Env :=
  { envDead with
    head := fun u => if u == urlSfBumped then HeadResult.ok 200 urlSfBumped else HeadResult.exn }

/-- A feed link that contains ".iso" without ending in it. -/
def linkSfA : String := "https://sourceforge.net/projects/p/files/a.iso.txt"

/-- An oracle serving a feed with that single link, whose download URL
answers 200. -/
def envSfA : Env :=
  { envDead with
    get := fun u =>
      if u == "https://sourceforge.net/projects/p/rss" then
        GetResult.ok 200 ("\"" ++ linkSfA ++ "\"")
      else GetResult.exn
    head := fun u =>
      if u == linkSfA ++ "/download" then HeadResult.ok 200 "http://mirror/a"
      else HeadResult.exn }

/-- A feed body with five non-matching links before a sixth that ends in
".iso". -/
def bodySfB : String :=
  "\"https://sourceforge.net/projects/p/files/d1\"" ++
  "\"https://sourceforge.net/projects/p/files/d2\"" ++
  "\"https://sourceforge.net/projects/p/files/d3\"" ++
  "\"https://sourceforge.net/projects/p/files/d4\"" ++
  "\"https://sourceforge.net/projects/p/files/d5\"" ++
  "\"https://sourceforge.net/projects/p/files/b.iso\""

/-- An oracle serving that feed, with the sixth link's download URL
answering 200. -/
def envSfB : Env :=
  { envDead with
    get := fun u =>
      if u == "https://sourceforge.net/projects/p/rss" then GetResult.ok 200 bodySfB
      else GetResult.exn
    head := fun u =>
      if u == "https://sourceforge.net/projects/p/files/b.iso/download" then
        HeadResult.ok 200 "http://mirror/b"
      else HeadResult.exn }

/-- An entry with no download_url key at all. -/
def eNoUrl : Entry := [("name", Json.str "A")]

/-- An entry whose download_url is the empty string. -/
def eEmptyUrl : Entry := [("name", Json.str "A"), ("download_url", Json.str "")]

theorem jlookup_setKey_self (e : Entry) (k : String) (v : Json) :
    jlookup k (setKey e k v) = some v := by
  induction e with
  | nil => simp [setKey, jlookup]
  | cons hd tl ih =>
    obtain ⟨k1, v1⟩ := hd
    by_cases h : k1 = k
    · subst h
      simp [setKey, jlookup]
    · simp [setKey, jlookup, h, ih]

theorem jlookup_setKey_ne (e : Entry) (k k2 : String) (v : Json) (h : k2 ≠ k) :
    jlookup k2 (setKey e k v) = jlookup k2 e := by
  induction e with
  | nil => simp [setKey, jlookup, Ne.symm h]
  | cons hd tl ih =>
    obtain ⟨k1, v1⟩ := hd
    by_cases h1 : k1 = k
    · subst h1
      simp [setKey, jlookup, Ne.symm h]
    · simp [setKey, jlookup, h1, ih]

theorem firstValidProbe_append (env : Env) (a b : List String) :
    firstValidProbe env (a ++ b) =
      match firstValidProbe env a with
      | some f => some f
      | none => firstValidProbe env b := by
  induction a with
  | nil => simp [firstValidProbe]
  | cons u us ih =>
    simp only [List.cons_append, firstValidProbe]
    rcases htu : test_url env u with ⟨b1, f1⟩
    cases b1 <;> cases f1 <;> simp [ih]

theorem vbInner_eq_firstValid (env : Env) (url : String) (m : Nat) (ns : List Nat) :
    vbInner env url m ns = firstValidProbe env (ns.map (fun n => subFirstVersion url m n)) := by
  induction ns with
  | nil => rfl
  | cons n ns ih =>
    simp only [vbInner, List.map, firstValidProbe]
    rcases test_url env (subFirstVersion url m n) with ⟨b1, f1⟩
    cases b1 <;> cases f1 <;> simp [ih]

theorem test_url_valid_ne_empty (env : Env) (hwf : headWF env) (u f : String)
    (h : test_url env u = (true, some f)) : f ≠ "" := by
  unfold test_url at h
  cases hh : env.head u with
  | ok s g =>
    rw [hh] at h
    dsimp only at h
    by_cases hs : (s == 200) = true
    · rw [if_pos hs] at h
      have : g = f := by injection h with h1 h2; injection h2
      subst this
      exact hwf u s g hh
    · rw [if_neg hs] at h
      exact absurd h (by simp)
  | exn =>
    rw [hh] at h
    exact absurd h (by simp)

theorem firstValidProbe_ne_empty (env : Env) (hwf : headWF env) (l : List String) (f : String)
    (h : firstValidProbe env l = some f) : f ≠ "" := by
  induction l with
  | nil => exact absurd h (by simp [firstValidProbe])
  | cons u us ih =>
    unfold firstValidProbe at h
    rcases htu : test_url env u with ⟨b1, f1⟩
    rw [htu] at h
    cases b1 with
    | true =>
      cases f1 with
      | some g =>
        have : g = f := by injection h
        subst this
        exact test_url_valid_ne_empty env hwf u g htu
      | none => exact ih h
    | false => exact ih h

theorem vbOuter_flat (env : Env) (hwf : headWF env) (url : String) (ns : List Nat)
    (ms : List Nat) :
    vbOuter env url ns none ms =
      firstValidProbe env (ms.flatMap fun m => ns.map fun n => subFirstVersion url m n) := by
  induction ms with
  | nil => rfl
  | cons m ms ih =>
    rw [List.flatMap_cons, firstValidProbe_append]
    simp only [vbOuter]
    cases hin : vbInner env url m ns with
    | some f =>
      have hf : f ≠ "" := by
        rw [vbInner_eq_firstValid] at hin
        exact firstValidProbe_ne_empty env hwf _ f hin
      rw [vbInner_eq_firstValid] at hin
      rw [hin]
      simp [pyTruthyS, hf]
    | none =>
      rw [vbInner_eq_firstValid] at hin
      rw [hin]
      simp only [pyTruthyS]
      rw [if_neg (by simp)]
      exact ih

/-- C5: for a broken URL embedding a major.minor pattern, the
version-increment strategy extracts the first such pair and probes the
first-occurrence substitutions for major in [major, major+1] and minor in
[minor, min(minor+4, 49)], in the nested order, stopping at the first
probe success (the outer loop breaking on any inner success), and yields
absent when no substitution validates.  Stated as equality with the
strategy written exactly as the specification words it, under the fact
that a completed response never carries an empty resp.url. -/
theorem c5_version_bump_matches_spec (env : Env) (url : String) (hwf : headWF env)
    (_hv : (findVersion url).isSome = true) :
    version_bump env url = version_bump_spec env url := by
  unfold version_bump version_bump_spec
  cases hfv : findVersion url with
  | none => rfl
  | some t =>
    obtain ⟨pre, major, minor, rest⟩ := t
    dsimp only
    rw [vbOuter_flat env hwf]
    have : List.range' minor (min (minor + 5) 50 - minor) =
        List.range' minor (min (minor + 4) 49 + 1 - minor) := by
      congr 1
      omega
    rw [this]

theorem headWF_envFix : headWF envFix := by
  intro u s f h
  unfold envFix at h
  simp only at h
  by_cases hu : (u == "http://host/v1.3/x.iso") = true
  · rw [if_pos hu] at h
    injection h with h1 h2
    subst h2
    decide
  · rw [if_neg hu] at h
    exact absurd h (by simp)

/-- Witness for C5 at a concrete oracle and URL. -/
theorem c5_witness :
    ((findVersion "http://host/v1.2/x.iso").isSome = true) ∧
    version_bump envFix "http://host/v1.2/x.iso" =
      version_bump_spec envFix "http://host/v1.2/x.iso" :=
  ⟨by decide, c5_version_bump_matches_spec envFix "http://host/v1.2/x.iso" headWF_envFix
    (by decide)⟩

/-- C4: the URL prober returns (true, final URL) exactly when the
redirect-following check answers status exactly 200; on any non-200
status or any raised exception (network failure, timeout, malformed URL)
it returns (false, absent).  Being a total function of the oracle, it
never raises. -/
theorem c4_prober (env : Env) (url : String) :
    (∀ f, test_url env url = (true, some f) ↔ env.head url = HeadResult.ok 200 f) ∧
    (∀ s f, env.head url = HeadResult.ok s f → s ≠ 200 → test_url env url = (false, none)) ∧
    (env.head url = HeadResult.exn → test_url env url = (false, none)) := by
  refine ⟨?_, ?_, ?_⟩
  · intro f
    cases hh : env.head url with
    | ok s g =>
      by_cases hs : s = 200
      · subst hs
        simp [test_url, hh]
      · simp [test_url, hh, hs]
    | exn => simp [test_url, hh]
  · intro s f hh hs
    simp [test_url, hh, hs]
  · intro hh
    simp [test_url, hh]

/-- Witness for C4 at a concrete oracle. -/
theorem c4_witness :
    envDead.head "http://x" = HeadResult.exn ∧
    test_url envDead "http://x" = (false, none) :=
  ⟨rfl, (c4_prober envDead "http://x").2.2 rfl⟩

theorem sfCandLoop_eq_filter (env : Env) (hint : String) (ls : List String) :
    sfCandLoop env hint ls =
      firstValidProbe env
        ((ls.filter (fun l => pyIn (pyLower hint) (pyLower l) || pyIn ".iso" (pyLower l))).map
          (fun l => l ++ "/download")) := by
  induction ls with
  | nil => rfl
  | cons l ls ih =>
    by_cases h : (pyIn (pyLower hint) (pyLower l) || pyIn ".iso" (pyLower l)) = true
    · simp only [List.filter_cons, h, if_true]
      simp only [sfCandLoop, List.map, firstValidProbe]
      rw [if_pos h]
      rcases test_url env (l ++ "/download") with ⟨b1, f1⟩
      cases b1 <;> cases f1 <;> simp [ih]
    · simp only [List.filter_cons, h, if_false]
      simp only [sfCandLoop]
      rw [if_neg h]
      exact ih

set_option maxRecDepth 100000 in
/-- C3 counterexample: the hosted-file-index lookup as the claim states it
(suffix test for ".iso", filtering before the 5-candidate cap) disagrees
with the code on two concrete feeds.  On the first feed the only link
contains ".iso" without ending in it: the code returns a validated URL
where the claimed behaviour returns absent.  On the second feed the only
matching link is the sixth one extracted: the code returns absent where
the claimed behaviour returns its validated URL. -/
theorem c3_counterexample :
    find_sourceforge_url envSfA "p" "zzz" = some "http://mirror/a" ∧
    find_sourceforge_claimspec envSfA "p" "zzz" = none ∧
    find_sourceforge_url envSfB "p" "zzz" = none ∧
    find_sourceforge_claimspec envSfB "p" "zzz" = some "http://mirror/b" := by
  refine ⟨?_, ?_, ?_, ?_⟩ <;> rfl

/-- C3 (amended): the hosted-file-index lookup extracts file-listing links
from the project's recent-files feed, takes the first 5 extracted links,
keeps those containing the filename hint or containing ".iso"
(case-insensitively), appends the download suffix to each, and probes the
kept candidates in order, returning the first that validates and absent
otherwise (also absent on a fetch failure or non-200 feed response). -/
theorem c3_sourceforge_amended (env : Env) (project hint : String) :
    find_sourceforge_url env project hint = find_sourceforge_amended env project hint := by
  unfold find_sourceforge_url find_sourceforge_amended
  cases hg : env.get ("https://sourceforge.net/projects/" ++ project ++ "/rss") with
  | ok s body =>
    dsimp only
    by_cases hs : (s == 200) = true
    · rw [if_pos hs, if_pos hs]
      exact sfCandLoop_eq_filter env hint ((sfFindall body).take 5)
    · rw [if_neg hs, if_neg hs]
  | exn => rfl

set_option maxRecDepth 100000 in
/-- C2 counterexample: a URL that references GitHub and also embeds a
version pattern.  The GitHub strategy is applicable and returns absent
(the API request raises); the version-increment strategy is applicable
and would return a candidate; the claimed chain therefore produces that
candidate, but the code's chain produces none, and the entry ends
StillBroken. -/
theorem c2_counterexample :
    genericFallbacksClaim envGh "X" urlGh = some urlGhBumped ∧
    genericFallbacks envGh "X" urlGh none = none ∧
    stepEntry envGh entryGh =
      some (entryGh, Outcome.stillBroken "X" urlGh "No replacement found") := by
  refine ⟨?_, ?_, ?_⟩ <;> rfl

/-- C2 (amended): for every broken entry, exactly one generic resolver is
attempted — the first in the priority order whose applicability
condition matches the URL — and its absence is final.  First conjunct:
the code's chain equals the first-applicable-only reference chain, for
every oracle, name, URL and incoming site-specific value.  The remaining
conjuncts spell the absence cases out: a GitHub URL whose forge lookup
returns absent, and a SourceForge URL whose hosted-file-index lookup
returns absent, yield no candidate even when the version-increment
strategy applies and would return one. -/
theorem c2_generic_first_applicable_only (env : Env) (name url : String)
    (new0 : Option String) :
    genericFallbacks env name url new0 = genericFallbacksAmended env name url new0 ∧
    (∀ u, pyIn "github.com" url = true →
      find_github_release_url env url (ghDerivedPattern url) name = none →
      version_bump env url = some u →
      genericFallbacks env name url new0 = none) ∧
    (∀ project u, pyIn "github.com" url = false → pyIn "sourceforge.net" url = true →
      sfProjectOf url = some project →
      find_sourceforge_url env project (sfFilenameOf url) = none →
      version_bump env url = some u →
      genericFallbacks env name url new0 = none) := by
  refine ⟨?_, ?_, ?_⟩
  · unfold genericFallbacks genericFallbacksAmended
    by_cases h1 : pyIn "github.com" url = true
    · rw [if_pos h1, if_pos h1]
    · rw [if_neg h1, if_neg h1]
      by_cases h2 : pyIn "sourceforge.net" url = true
      · rw [if_pos h2, if_pos h2]
      · rw [if_neg h2, if_neg h2]
        by_cases h3 : (findVersion url).isSome = true
        · rw [if_pos h3, if_pos h3]
        · rw [if_neg h3, if_neg h3]
          by_cases h4 : (pyIn "download.fedoraproject.org" url ||
              pyIn "cdimage.debian.org" url) = true
          · rw [if_pos h4]
          · rw [if_neg h4]
  · intro u hgh habsent _hbump
    unfold genericFallbacks
    rw [if_pos hgh]
    exact habsent
  · intro project u hgh hsf hproj habsent _hbump
    unfold genericFallbacks
    rw [if_neg (show ¬ pyIn "github.com" url = true by simp [hgh])]
    rw [if_pos hsf, hproj]
    exact habsent

/-- Witness for C2 exercising both absence conjuncts at concrete oracles:
a GitHub URL and a SourceForge URL, each with the first applicable
resolver absent and the version-increment strategy able to succeed. -/
theorem c2_witness :
    (pyIn "github.com" urlGh = true ∧
     genericFallbacks envGh "X" urlGh none = none) ∧
    (pyIn "sourceforge.net" urlSf = true ∧
     genericFallbacks envSfC "X" urlSf none = none) :=
  ⟨⟨by decide,
    (c2_generic_first_applicable_only envGh "X" urlGh none).2.1 urlGhBumped (by decide)
      (by rfl) (by rfl)⟩,
   ⟨by decide,
    (c2_generic_first_applicable_only envSfC "X" urlSf none).2.2 "q" urlSfBumped (by decide)
      (by decide) (by rfl) (by rfl) (by rfl)⟩⟩

theorem brokenOutcome_cases (env : Env) (e : Entry) (name url : String) :
    brokenOutcome env e name url = (e, Outcome.stillBroken name url "No replacement found") ∨
    brokenOutcome env e name url =
      (e, Outcome.stillBroken name url "Found replacement but validation failed") ∨
    (∃ c v, searchReplacement env name url = some c ∧ test_url env c = (true, some v) ∧
      brokenOutcome env e name url =
        (setKey (setKey e "download_url" (Json.str v)) "verified" (Json.bool false),
         Outcome.fixed c v)) := by
  unfold brokenOutcome
  cases hsr : searchReplacement env name url with
  | none => left; rfl
  | some c =>
    dsimp only
    by_cases hc : (c == "") = true
    · rw [if_pos hc]
      left; rfl
    · rw [if_neg hc]
      rcases htc : test_url env c with ⟨b1, f1⟩
      cases b1 with
      | false =>
        dsimp only
        right; left; rfl
      | true =>
        cases f1 with
        | none =>
          dsimp only
          right; left; rfl
        | some v =>
          dsimp only
          right; right
          exact ⟨c, v, rfl, htc, rfl⟩

/-- C1: for an entry whose original URL probes invalid, either the entry
ends StillBroken and is returned wholly unmutated (in particular its
download_url is its input value), or it ends Fixed, in which case the
replacement candidate produced by the search passed a second independent
probe, download_url was overwritten with that probe's final URL, and
verified was set to false. -/
theorem c1_broken_url_discipline (env : Env) (e e2 : Entry) (o : Outcome) (url : String)
    (hurl : jGetD e "download_url" (Json.str "") = Json.str url)
    (hne : url ≠ "")
    (hbad : (test_url env url).1 = false)
    (hstep : stepEntry env e = some (e2, o)) :
    (∃ n u reason, o = Outcome.stillBroken n u reason ∧ e2 = e) ∨
    (∃ c v name, o = Outcome.fixed c v ∧
      jGetD e "name" (Json.str "Unknown") = Json.str name ∧
      searchReplacement env name url = some c ∧
      test_url env c = (true, some v) ∧
      e2 = setKey (setKey e "download_url" (Json.str v)) "verified" (Json.bool false) ∧
      jlookup "download_url" e2 = some (Json.str v) ∧
      jlookup "verified" e2 = some (Json.bool false)) := by
  unfold stepEntry at hstep
  rw [hurl] at hstep
  have hb : jTruthy (Json.str url) = true := by simp [jTruthy, hne]
  rw [if_pos hb] at hstep
  dsimp only at hstep
  rcases htu : test_url env url with ⟨b1, f1⟩
  rw [htu] at hstep hbad
  cases b1 with
  | true => exact absurd hbad (by simp)
  | false =>
    dsimp only at hstep
    cases hn : jGetD e "name" (Json.str "Unknown") with
    | str name =>
      rw [hn] at hstep
      dsimp only at hstep
      have hbo : brokenOutcome env e name url = (e2, o) := by
        injection hstep
      rcases brokenOutcome_cases env e name url with h | h | ⟨c, v, hsr, htc, h⟩
      · rw [hbo] at h
        injection h with h1 h2
        exact Or.inl ⟨name, url, "No replacement found", h2, h1⟩
      · rw [hbo] at h
        injection h with h1 h2
        exact Or.inl ⟨name, url, "Found replacement but validation failed", h2, h1⟩
      · rw [hbo] at h
        injection h with h1 h2
        refine Or.inr ⟨c, v, name, h2, rfl, hsr, htc, h1, ?_, ?_⟩
        · rw [h1]
          rw [jlookup_setKey_ne _ _ _ _ (by decide)]
          exact jlookup_setKey_self e "download_url" (Json.str v)
        · rw [h1]
          exact jlookup_setKey_self _ "verified" (Json.bool false)
    | null => rw [hn] at hstep; exact absurd hstep (by simp)
    | bool b => rw [hn] at hstep; exact absurd hstep (by simp)
    | num n => rw [hn] at hstep; exact absurd hstep (by simp)
    | arr xs => rw [hn] at hstep; exact absurd hstep (by simp)
    | obj kvs => rw [hn] at hstep; exact absurd hstep (by simp)

/-- Witness for C1 at a concrete dead oracle: the entry ends StillBroken
unmutated. -/
theorem c1_witness :
    (test_url envDead "http://x").1 = false ∧
    ((∃ n u reason,
        (Outcome.stillBroken "A" "http://x" "No replacement found" : Outcome) =
          Outcome.stillBroken n u reason ∧ eDead = eDead) ∨
     (∃ c v name,
        (Outcome.stillBroken "A" "http://x" "No replacement found" : Outcome) =
          Outcome.fixed c v ∧
        jGetD eDead "name" (Json.str "Unknown") = Json.str name ∧
        searchReplacement envDead name "http://x" = some c ∧
        test_url envDead c = (true, some v) ∧
        eDead = setKey (setKey eDead "download_url" (Json.str v)) "verified"
          (Json.bool false) ∧
        jlookup "download_url" eDead = some (Json.str v) ∧
        jlookup "verified" eDead = some (Json.bool false))) :=
  ⟨by decide,
   c1_broken_url_discipline envDead eDead eDead
     (Outcome.stillBroken "A" "http://x" "No replacement found") "http://x" (by rfl)
     (by decide) (by decide) (by rfl)⟩

theorem brokenOutcome_fixed_inv (env : Env) (e : Entry) (name url : String) (e2 : Entry)
    (c v : String)
    (h : brokenOutcome env e name url = (e2, Outcome.fixed c v)) :
    e2 = setKey (setKey e "download_url" (Json.str v)) "verified" (Json.bool false) ∧
    test_url env c = (true, some v) := by
  rcases brokenOutcome_cases env e name url with hh | hh | ⟨c1, v1, hsr, htc, hh⟩
  · rw [hh] at h
    simp at h
  · rw [hh] at h
    simp at h
  · rw [hh] at h
    simp only [Prod.mk.injEq, Outcome.fixed.injEq] at h
    obtain ⟨h1, h2, h3⟩ := h
    subst h2
    subst h3
    exact ⟨h1.symm, htc⟩

theorem stepEntry_fixed_inv (env : Env) (e e2 : Entry) (c v : String)
    (hstep : stepEntry env e = some (e2, Outcome.fixed c v)) :
    e2 = setKey (setKey e "download_url" (Json.str v)) "verified" (Json.bool false) ∧
    test_url env c = (true, some v) := by
  unfold stepEntry at hstep
  repeat' split at hstep
  all_goals try simp at hstep
  all_goals exact brokenOutcome_fixed_inv env e _ _ e2 c v hstep

/-- C10: an entry that ends Fixed keeps every field other than download_url
and verified at its input value. -/
theorem c10_fixed_frame (env : Env) (e e2 : Entry) (c v : String)
    (hstep : stepEntry env e = some (e2, Outcome.fixed c v)) :
    ∀ k, k ≠ "download_url" → k ≠ "verified" → jlookup k e2 = jlookup k e := by
  obtain ⟨he2, -⟩ := stepEntry_fixed_inv env e e2 c v hstep
  intro k hk1 hk2
  subst he2
  rw [jlookup_setKey_ne _ _ _ _ hk2, jlookup_setKey_ne _ _ _ _ hk1]

set_option maxRecDepth 100000 in
/-- Witness for C10 at a concrete oracle: the fix touches neither the name
nor the other field. -/
theorem c10_witness :
    stepEntry envFix eFix =
      some (eFix2, Outcome.fixed "http://host/v1.3/x.iso" "http://host/v1.3/x.iso") ∧
    jlookup "other" eFix2 = jlookup "other" eFix :=
  ⟨by rfl,
   c10_fixed_frame envFix eFix eFix2 "http://host/v1.3/x.iso" "http://host/v1.3/x.iso"
     (by rfl) "other" (by decide) (by decide)⟩

/-- C8: an entry whose original URL probes valid with a different final URL
has download_url overwritten with the resolved URL, its verified flag
untouched, and is counted as a redirect only (no other counter or the
failure list moves). -/
theorem c8_redirect_dedirect (env : Env) (st : St) (e : Entry) (url f : String)
    (hurl : jGetD e "download_url" (Json.str "") = Json.str url)
    (hne : url ≠ "")
    (htu : test_url env url = (true, some f))
    (hdiff : f ≠ url) :
    mainStep env st e =
      some { st with processed := st.processed ++ [setKey e "download_url" (Json.str f)],
                     redirectCount := st.redirectCount + 1 } ∧
    jlookup "verified" (setKey e "download_url" (Json.str f)) = jlookup "verified" e := by
  constructor
  · unfold mainStep stepEntry
    rw [hurl]
    rw [if_pos (show jTruthy (Json.str url) = true by simp [jTruthy, hne])]
    dsimp only
    rw [htu]
    dsimp only
    rw [if_pos (show (f != url) = true by simp [hdiff])]
    simp [applyStep]
  · exact jlookup_setKey_ne e "download_url" "verified" (Json.str f) (by decide)

/-- Witness for C8 at a concrete redirecting oracle. -/
theorem c8_witness :
    mainStep envRedirect initSt eRed =
      some { initSt with
               processed := initSt.processed ++
                 [setKey eRed "download_url" (Json.str "http://b/x.iso")],
               redirectCount := initSt.redirectCount + 1 } ∧
    jlookup "verified" (setKey eRed "download_url" (Json.str "http://b/x.iso")) =
      jlookup "verified" eRed :=
  c8_redirect_dedirect envRedirect initSt eRed "http://a/x.iso" "http://b/x.iso" (by rfl)
    (by decide) (by rfl) (by decide)

/-- C9: an entry with no download_url key and an entry whose download_url is
the empty string are both skipped: no probe happens (the oracle is
arbitrary), the entry is appended unchanged, and no counter and no
failure entry moves. -/
theorem c9_missing_key_like_empty (env : Env) (st : St) (e1 e2 : Entry)
    (h1 : jlookup "download_url" e1 = none)
    (h2 : jlookup "download_url" e2 = some (Json.str "")) :
    mainStep env st e1 = some { st with processed := st.processed ++ [e1] } ∧
    mainStep env st e2 = some { st with processed := st.processed ++ [e2] } := by
  constructor
  · unfold mainStep stepEntry jGetD
    rw [h1]
    rw [if_neg (by simp [jTruthy])]
    simp [applyStep]
  · unfold mainStep stepEntry jGetD
    rw [h2]
    rw [if_neg (by simp [jTruthy])]
    simp [applyStep]

/-- Witness for C9 at concrete entries and a dead oracle. -/
theorem c9_witness :
    mainStep envDead initSt eNoUrl =
      some { initSt with processed := initSt.processed ++ [eNoUrl] } ∧
    mainStep envDead initSt eEmptyUrl =
      some { initSt with processed := initSt.processed ++ [eEmptyUrl] } :=
  c9_missing_key_like_empty envDead initSt eNoUrl eEmptyUrl (by rfl) (by rfl)

theorem runCatalog_inv (env : Env) (data catalogJ : Json) (w : Bool) (r : MainResult)
    (h : runCatalog env data catalogJ w = some r) :
    r = finishRun data w r.st ∧ r.hasWrapper = w := by
  unfold runCatalog at h
  repeat' split at h
  all_goals try simp at h
  all_goals {
    subst h
    exact ⟨rfl, rfl⟩
  }

theorem mainRun_inv (env : Env) (data : Json) (r : MainResult)
    (h : mainRun env data = some r) : r = finishRun data r.hasWrapper r.st := by
  unfold mainRun at h
  split at h
  · split at h
    · obtain ⟨h1, h2⟩ := runCatalog_inv env _ _ true r h
      rw [h2]
      exact h1
    · obtain ⟨h1, h2⟩ := runCatalog_inv env _ _ false r h
      rw [h2]
      exact h1
  · obtain ⟨h1, h2⟩ := runCatalog_inv env _ _ false r h
    rw [h2]
    exact h1

/-- C6: the top-level shape round-trips: whenever a run writes an output
document, a bare-array input yields a bare-array output, and an input
wrapped in an object holding the array under the distros key yields an
output that is the same object with the distros key holding the updated
array. -/
theorem c6_wrapper_roundtrip (env : Env) (data : Json) (r : MainResult)
    (h : mainRun env data = some r) :
    (∀ xs p j, data = Json.arr xs → FileOp.write p j ∈ r.fileOps → ∃ ys, j = Json.arr ys) ∧
    (∀ kvs d p j, data = Json.obj kvs → jlookup "distros" kvs = some d →
      FileOp.write p j ∈ r.fileOps →
      ∃ ys, j = Json.obj (setKey kvs "distros" (Json.arr ys))) := by
  constructor
  · intro xs p j hdata hmem
    subst hdata
    obtain ⟨h1, h2⟩ := runCatalog_inv env (Json.arr xs) (Json.arr xs) false r h
    rw [h1] at hmem
    unfold finishRun at hmem
    dsimp only at hmem
    by_cases hch : 0 < r.st.fixedCount + r.st.redirectCount
    · rw [if_pos hch] at hmem
      simp only [List.mem_cons, List.not_mem_nil, or_false] at hmem
      rcases hmem with h3 | h3
      · simp at h3
      · injection h3 with hp hj
        exact ⟨r.st.processed.map Json.obj, by rw [hj]; rfl⟩
    · rw [if_neg hch] at hmem
      simp at hmem
  · intro kvs d p j hdata hd hmem
    subst hdata
    unfold mainRun at h
    dsimp only at h
    rw [hd] at h
    dsimp only at h
    obtain ⟨h1, h2⟩ := runCatalog_inv env (Json.obj kvs) d true r h
    rw [h1] at hmem
    unfold finishRun at hmem
    dsimp only at hmem
    by_cases hch : 0 < r.st.fixedCount + r.st.redirectCount
    · rw [if_pos hch] at hmem
      simp only [List.mem_cons, List.not_mem_nil, or_false] at hmem
      rcases hmem with h3 | h3
      · simp at h3
      · injection h3 with hp hj
        exact ⟨r.st.processed.map Json.obj, by rw [hj]; rfl⟩
    · rw [if_neg hch] at hmem
      simp at hmem

/-- Witness for C6 at a concrete run that writes output (a bare-array input
produced a bare-array output document). -/
theorem c6_witness :
    mainRun envRedirect dataRed = some resRed ∧
    (∃ ys, buildOutput dataRed false stRed.processed = Json.arr ys) :=
  ⟨by rfl,
   (c6_wrapper_roundtrip envRedirect dataRed resRed (by rfl)).1 [Json.obj eRed]
     "catalog.json.new" (buildOutput dataRed false stRed.processed) rfl
     (List.mem_cons_of_mem _ (List.mem_cons_self _ _))⟩

/-- C7: the backup copy and the output write happen exactly when at least
one fix or redirect happened (and then as a copy of the source to the
backup path followed by a write of the updated catalog to the new path);
with zero changes nothing is written; no write ever targets the source
file, which is only ever read or copied from. -/
theorem c7_backup_iff_changed (env : Env) (data : Json) (r : MainResult)
    (h : mainRun env data = some r) :
    (0 < r.st.fixedCount + r.st.redirectCount →
      r.fileOps = [FileOp.copy "catalog.json" "catalog.json.backup",
        FileOp.write "catalog.json.new" (buildOutput data r.hasWrapper r.st.processed)]) ∧
    (r.st.fixedCount + r.st.redirectCount = 0 → r.fileOps = []) ∧
    (∀ p j, FileOp.write p j ∈ r.fileOps → p = "catalog.json.new" ∧ p ≠ "catalog.json") ∧
    (∀ src dst, FileOp.copy src dst ∈ r.fileOps →
      src = "catalog.json" ∧ dst = "catalog.json.backup") := by
  have hr := mainRun_inv env data r h
  have hf : r.fileOps =
      (if 0 < r.st.fixedCount + r.st.redirectCount then
        [FileOp.copy "catalog.json" "catalog.json.backup",
         FileOp.write "catalog.json.new" (buildOutput data r.hasWrapper r.st.processed)]
       else []) := by
    conv_lhs => rw [hr]
    rfl
  refine ⟨?_, ?_, ?_, ?_⟩
  · intro hch
    rw [hf, if_pos hch]
  · intro hch
    rw [hf, if_neg (by omega)]
  · intro p j hmem
    rw [hf] at hmem
    by_cases hch : 0 < r.st.fixedCount + r.st.redirectCount
    · rw [if_pos hch] at hmem
      simp only [List.mem_cons, List.not_mem_nil, or_false] at hmem
      rcases hmem with h3 | h3
      · simp at h3
      · injection h3 with hp hj
        subst hp
        exact ⟨rfl, by decide⟩
    · rw [if_neg hch] at hmem
      simp at hmem
  · intro src dst hmem
    rw [hf] at hmem
    by_cases hch : 0 < r.st.fixedCount + r.st.redirectCount
    · rw [if_pos hch] at hmem
      simp only [List.mem_cons, List.not_mem_nil, or_false] at hmem
      rcases hmem with h3 | h3
      · injection h3 with hs hd
        subst hs
        subst hd
        exact ⟨rfl, rfl⟩
      · simp at h3
    · rw [if_neg hch] at hmem
      simp at hmem

/-- Witness for C7 at a concrete run with one redirect. -/
theorem c7_witness :
    mainRun envRedirect dataRed = some resRed ∧
    resRed.fileOps = [FileOp.copy "catalog.json" "catalog.json.backup",
      FileOp.write "catalog.json.new"
        (buildOutput dataRed resRed.hasWrapper resRed.st.processed)] :=
  ⟨by rfl, (c7_backup_iff_changed envRedirect dataRed resRed (by rfl)).1 (by decide)⟩
